import Mathlib

/-!
# A verification model of the Crucible downstairs core

This file gives a shallow embedding, in Lean 4, of the session registry,
work queue, negotiation state machine and frame dispatcher of the
`crucible-downstairs` crate (`src/downstairs/src/lib.rs`), together with
theorems settling the stated properties of those operations.

Rust `HashMap`s are embedded as association lists with insert/erase/update
operations whose lookup semantics match the `HashMap` API; `u64` ids and
UUIDs are embedded as `Nat` (only equality and ordering of ids matter to the
code modelled here); fallible operations return `Except`; the one-shot
eviction channel is embedded by recording the emitted signal as an event.
The region storage engine is out of scope for the core (it is consumed as an
opaque interface), so the few region calls that the modelled paths make are
embedded as always-succeeding operations on opaque data.
-/

set_option autoImplicit false

namespace Crucible

/-! ## Association-list maps (embedding of Rust `HashMap`) -/

/-- Lookup of a key, matching `HashMap::get`. -/
def lookupKey {α : Type} : List (Nat × α) → Nat → Option α
  | [], _ => none
  | (k0, v) :: rest, k => if k0 = k then some v else lookupKey rest k

/-- Removal of a key, matching `HashMap::remove`. -/
def eraseKey {α : Type} : List (Nat × α) → Nat → List (Nat × α)
  | [], _ => []
  | (k0, v) :: rest, k =>
      if k0 = k then eraseKey rest k else (k0, v) :: eraseKey rest k

/-- Insertion of a key/value pair, matching `HashMap::insert` (replaces any
existing entry under the same key). -/
def insertKey {α : Type} (m : List (Nat × α)) (k : Nat) (v : α) :
    List (Nat × α) :=
  (k, v) :: eraseKey m k

/-- In-place update of the value stored under a key (embedding of mutation
through a lock guard, which does not move the entry). -/
def updateKey {α : Type} : List (Nat × α) → Nat → (α → α) → List (Nat × α)
  | [], _, _ => []
  | (k0, v) :: rest, k, f =>
      if k0 = k then (k0, f v) :: updateKey rest k f
      else (k0, v) :: updateKey rest k f

/-- The keys of a map. -/
def keysOf {α : Type} (m : List (Nat × α)) : List Nat :=
  m.map Prod.fst

theorem lookupKey_eraseKey_self {α : Type} (m : List (Nat × α)) (k : Nat) :
    lookupKey (eraseKey m k) k = none := by
  induction m with
  | nil => simp [eraseKey, lookupKey]
  | cons p rest ih =>
      obtain ⟨k0, v⟩ := p
      by_cases h : k0 = k
      · simpa [eraseKey, h] using ih
      · simpa [eraseKey, lookupKey, h] using ih

theorem lookupKey_eraseKey_ne {α : Type} (m : List (Nat × α)) (k k' : Nat)
    (h : k' ≠ k) : lookupKey (eraseKey m k) k' = lookupKey m k' := by
  induction m with
  | nil => simp [eraseKey]
  | cons p rest ih =>
      obtain ⟨k0, v⟩ := p
      by_cases h0 : k0 = k
      · subst h0
        simp [eraseKey, lookupKey, Ne.symm h, ih]
      · simp [eraseKey, lookupKey, h0, h, ih]

theorem lookupKey_insertKey_self {α : Type} (m : List (Nat × α)) (k : Nat)
    (v : α) : lookupKey (insertKey m k v) k = some v := by
  simp [insertKey, lookupKey]

theorem lookupKey_insertKey_ne {α : Type} (m : List (Nat × α)) (k k' : Nat)
    (v : α) (h : k' ≠ k) :
    lookupKey (insertKey m k v) k' = lookupKey m k' := by
  have : k ≠ k' := fun hc => h hc.symm
  simp [insertKey, lookupKey, this, lookupKey_eraseKey_ne m k k' h]

theorem lookupKey_updateKey_self {α : Type} (m : List (Nat × α)) (k : Nat)
    (f : α → α) :
    lookupKey (updateKey m k f) k = Option.map f (lookupKey m k) := by
  induction m with
  | nil => simp [updateKey, lookupKey]
  | cons p rest ih =>
      obtain ⟨k0, v⟩ := p
      by_cases h : k0 = k
      · simp [updateKey, lookupKey, h]
      · simp [updateKey, lookupKey, h, ih]

theorem lookupKey_updateKey_ne {α : Type} (m : List (Nat × α)) (k k' : Nat)
    (f : α → α) (h : k' ≠ k) :
    lookupKey (updateKey m k f) k' = lookupKey m k' := by
  induction m with
  | nil => simp [updateKey]
  | cons p rest ih =>
      obtain ⟨k0, v⟩ := p
      by_cases h0 : k0 = k
      · subst h0
        simp [updateKey, lookupKey, Ne.symm h, ih]
      · simp [updateKey, lookupKey, h0, h, ih]

theorem mem_keysOf_eraseKey {α : Type} (m : List (Nat × α)) (k a : Nat) :
    a ∈ keysOf (eraseKey m k) → a ∈ keysOf m := by
  induction m with
  | nil =>
      intro h
      simp [eraseKey, keysOf] at h
  | cons p rest ih =>
      obtain ⟨k0, v⟩ := p
      intro h
      by_cases h0 : k0 = k
      · simp only [eraseKey, if_pos h0] at h
        exact List.mem_cons_of_mem _ (ih h)
      · simp only [eraseKey, if_neg h0, keysOf, List.map_cons,
          List.mem_cons] at h ⊢
        rcases h with h | h
        · exact Or.inl h
        · exact Or.inr (ih h)

theorem not_mem_keysOf_eraseKey {α : Type} (m : List (Nat × α)) (k : Nat) :
    k ∉ keysOf (eraseKey m k) := by
  induction m with
  | nil => simp [eraseKey, keysOf]
  | cons p rest ih =>
      obtain ⟨k0, v⟩ := p
      by_cases h0 : k0 = k
      · simpa [eraseKey, h0] using ih
      · simp only [eraseKey, if_neg h0, keysOf, List.map_cons, List.mem_cons]
        intro hc
        rcases hc with hc | hc
        · exact h0 hc.symm
        · exact ih hc

theorem nodup_keysOf_eraseKey {α : Type} (m : List (Nat × α)) (k : Nat)
    (h : (keysOf m).Nodup) : (keysOf (eraseKey m k)).Nodup := by
  induction m with
  | nil => simp [eraseKey, keysOf]
  | cons p rest ih =>
      obtain ⟨k0, v⟩ := p
      simp only [keysOf, List.map_cons, List.nodup_cons] at h
      by_cases h0 : k0 = k
      · simpa [eraseKey, h0] using ih h.2
      · simp only [eraseKey, if_neg h0, keysOf, List.map_cons,
          List.nodup_cons]
        exact ⟨fun hc => h.1 (mem_keysOf_eraseKey rest k k0 hc), ih h.2⟩

theorem keysOf_updateKey {α : Type} (m : List (Nat × α)) (k : Nat)
    (f : α → α) : keysOf (updateKey m k f) = keysOf m := by
  induction m with
  | nil => simp [updateKey, keysOf]
  | cons p rest ih =>
      obtain ⟨k0, v⟩ := p
      by_cases h0 : k0 = k
      · simp only [updateKey, if_pos h0, keysOf, List.map_cons] at ih ⊢
        rw [ih]
      · simp only [updateKey, if_neg h0, keysOf, List.map_cons] at ih ⊢
        rw [ih]

theorem nodup_keysOf_insertKey {α : Type} (m : List (Nat × α)) (k : Nat)
    (v : α) (h : (keysOf m).Nodup) : (keysOf (insertKey m k v)).Nodup := by
  simp only [insertKey, keysOf, List.map_cons, List.nodup_cons]
  exact ⟨not_mem_keysOf_eraseKey m k, nodup_keysOf_eraseKey m k h⟩

/-! ## Data model -/

/-- UUIDs are embedded as naturals: the code only compares them. -/
abbrev Uuid := Nat

/-- Identity of a single remote upstairs session
(`UpstairsConnection`, lib.rs). `PartialEq` on the Rust struct compares all
three fields, matching structural equality here. -/
structure UpstairsConnection where
  upstairs_id : Uuid
  session_id : Uuid
  gen : Nat
deriving DecidableEq

/-- Modelled from the spec: one block-read request of the wire protocol
(`crucible_protocol::ReadRequest`, external crate): an extent id and a block
offset. -/
structure ReadReq where
  eid : Nat
  offset : Nat
deriving DecidableEq

/-- Modelled from the spec: one block write of the wire protocol
(`crucible_protocol::Write`, external crate): an extent id, a block offset
and opaque payload data. -/
structure WriteReq where
  eid : Nat
  offset : Nat
  data : List Nat
deriving DecidableEq

/-- The four IO operation variants (`IOop`, crucible crate; the variants and
their dependency lists are those matched throughout lib.rs). -/
inductive IOop where
  | Read (dependencies : List Nat) (requests : List ReadReq)
  | Write (dependencies : List Nat) (writes : List WriteReq)
  | WriteUnwritten (dependencies : List Nat) (writes : List WriteReq)
  | Flush (dependencies : List Nat) (flush_number : Nat) (gen_number : Nat)
      (snapshot_details : Option Nat)
deriving DecidableEq

/-- `IOop::deps`: the dependency list of the operation. -/
def IOop.deps : IOop → List Nat
  | .Read dependencies _ => dependencies
  | .Write dependencies _ => dependencies
  | .WriteUnwritten dependencies _ => dependencies
  | .Flush dependencies _ _ _ => dependencies

/-- The write test of `Downstairs::add_work`: `Write` and `WriteUnwritten`
are writes, `Read` and `Flush` are not. -/
def IOop.isWriteOp : IOop → Bool
  | .Write _ _ => true
  | .WriteUnwritten _ _ => true
  | .Read _ _ => false
  | .Flush _ _ _ _ => false

/-- Job states (`WorkState`, lib.rs). -/
inductive WorkState where
  | New
  | DepWait
  | InProgress
  | Done
  | Error
deriving DecidableEq

/-- A job in flight (`DownstairsWork`, lib.rs). -/
structure DownstairsWork where
  upstairs_connection : UpstairsConnection
  ds_id : Nat
  work : IOop
  state : WorkState
deriving DecidableEq

/-- The per-session work queue (`Work`, lib.rs). -/
structure Work where
  active : List (Nat × DownstairsWork)
  outstanding_deps : List (Nat × Nat)
  last_flush : Nat
  completed : List Nat
deriving DecidableEq

/-- `Work::new`. -/
def Work.new : Work :=
  { active := [], outstanding_deps := [], last_flush := 0, completed := [] }

/-- `Work::clear`: resets every field to its initial value. -/
def Work.clear (_w : Work) : Work :=
  { active := [], outstanding_deps := [], last_flush := 0, completed := [] }

/-- `Work::jobs`. -/
def Work.jobs (w : Work) : Nat :=
  w.active.length

/-- `Work::add_work`: unconditional `HashMap::insert` of the job under
`ds_id`. -/
def Work.add_work (w : Work) (ds_id : Nat) (dsw : DownstairsWork) : Work :=
  { w with active := insertKey w.active ds_id dsw }

/-- `Work::in_progress` (lib.rs lines 2116-2232), with the `Logger` argument
dropped (it only rate-limits a log line through `outstanding_deps`, which is
still maintained here).  Returns the optional `(ds_id, owner)` pair together
with the updated queue. -/
def Work.in_progress (w : Work) (ds_id : Nat) :
    Option (Nat × UpstairsConnection) × Work :=
  match lookupKey w.active ds_id with
  | none => (none, w)
  | some job =>
    if job.state = WorkState.New ∨ job.state = WorkState.DepWait then
      let deps_outstanding :=
        job.work.deps.filter
          (fun dep => decide (¬ dep ≤ w.last_flush ∧ dep ∉ w.completed))
      if deps_outstanding = [] then
        (some (job.ds_id, job.upstairs_connection),
         { w with active :=
             insertKey w.active ds_id { job with state := WorkState.InProgress } })
      else
        (none,
         { w with
             outstanding_deps :=
               insertKey w.outstanding_deps ds_id deps_outstanding.length,
             active :=
               if job.state = WorkState.New then
                 insertKey w.active ds_id { job with state := WorkState.DepWait }
               else w.active })
    else
      (none, w)

/-- A dependency is satisfied when it is at or below the flush horizon or
recorded as completed (spec P1; the test of `Work::in_progress`). -/
def depsSatisfied (w : Work) (deps : List Nat) : Prop :=
  ∀ d ∈ deps, d ≤ w.last_flush ∨ d ∈ w.completed

instance (w : Work) (deps : List Nat) : Decidable (depsSatisfied w deps) := by
  unfold depsSatisfied
  infer_instance

theorem unmet_filter_eq_nil_iff (w : Work) (deps : List Nat) :
    deps.filter
        (fun dep => decide (¬ dep ≤ w.last_flush ∧ dep ∉ w.completed)) = []
      ↔ depsSatisfied w deps := by
  unfold depsSatisfied
  rw [List.filter_eq_nil_iff]
  constructor
  · intro hall d hd
    have hthis := hall d hd
    simp only [decide_eq_true_eq] at hthis
    by_cases hle : d ≤ w.last_flush
    · exact Or.inl hle
    · right
      by_contra hc
      exact hthis ⟨hle, hc⟩
  · intro hall d hd
    simp only [decide_eq_true_eq]
    intro hcon
    rcases hall d hd with h1 | h1
    · exact hcon.1 h1
    · exact hcon.2 h1

/-! ## Wire messages and errors -/

/-- The wire-protocol messages handled by the modelled code paths
(`crucible_protocol::Message`, external crate; fields are those read by
lib.rs).  Region definitions, repair addresses and read payloads are opaque
to the core and embedded as naturals. -/
inductive Message where
  | Ruok
  | Imok
  | HereIAm (version : Nat) (upstairs_id : Uuid) (session_id : Uuid)
      (gen : Nat) (read_only : Bool) (encrypted : Bool)
  | YesItsMe (version : Nat) (repair_addr : Nat)
  | PromoteToActive (upstairs_id : Uuid) (session_id : Uuid) (gen : Nat)
  | YouAreNowActive (upstairs_id : Uuid) (session_id : Uuid) (gen : Nat)
  | YouAreNoLongerActive (new_upstairs_id : Uuid) (new_session_id : Uuid)
      (new_gen : Nat)
  | UuidMismatch (expected_id : Uuid)
  | ReadOnlyMismatch (expected : Bool)
  | EncryptedMismatch (expected : Bool)
  | RegionInfoPlease
  | RegionInfo (region_def : Nat)
  | LastFlush (last_flush_number : Nat)
  | LastFlushAck (last_flush_number : Nat)
  | ExtentVersionsPlease
  | ExtentVersions (gen_numbers : List Nat) (flush_numbers : List Nat)
      (dirty_bits : List Bool)
  | Write (upstairs_id : Uuid) (session_id : Uuid) (job_id : Nat)
      (dependencies : List Nat) (writes : List WriteReq)
  | WriteUnwritten (upstairs_id : Uuid) (session_id : Uuid) (job_id : Nat)
      (dependencies : List Nat) (writes : List WriteReq)
  | Flush (upstairs_id : Uuid) (session_id : Uuid) (job_id : Nat)
      (dependencies : List Nat) (flush_number : Nat) (gen_number : Nat)
      (snapshot_details : Option Nat)
  | ReadRequest (upstairs_id : Uuid) (session_id : Uuid) (job_id : Nat)
      (dependencies : List Nat) (requests : List ReadReq)
  | ReadResponse (upstairs_id : Uuid) (session_id : Uuid) (job_id : Nat)
      (ok : Bool)
  | WriteAck (upstairs_id : Uuid) (session_id : Uuid) (job_id : Nat)
      (ok : Bool)
  | WriteUnwrittenAck (upstairs_id : Uuid) (session_id : Uuid) (job_id : Nat)
      (ok : Bool)
  | FlushAck (upstairs_id : Uuid) (session_id : Uuid) (job_id : Nat)
      (ok : Bool)
deriving DecidableEq

/-- The flush test of `Downstairs::complete_work`:
`matches!(m, Message::FlushAck { .. })`. -/
def Message.isFlushAck : Message → Bool
  | .FlushAck _ _ _ _ => true
  | _ => false

/-- The errors the modelled paths can produce.  `UpstairsInactive` and
`ModifyingReadOnlyRegion` are the typed `CrucibleError` variants the code
raises; every `bail!` with a free-form message is embedded as
`GenericError`. -/
inductive CrucibleError where
  | UpstairsInactive
  | ModifyingReadOnlyRegion
  | GenericError
deriving DecidableEq

/-! ## Region (opaque) -/

/-- Modelled from the spec: the region storage engine is out of scope and
consumed as an opaque interface; only the data the negotiation phase reads
from it appears here. -/
structure Region where
  rdef : Nat
  gen_numbers : List Nat
  flush_numbers : List Nat
  dirty : List Bool
deriving DecidableEq

/-- Modelled from the spec: `Region::reopen_all_extents` re-opens closed
extents; it touches no state that this model tracks and the modelled paths
treat it as succeeding. -/
def Region.reopen_all_extents (r : Region) : Region :=
  r

/-! ## Session registry (`Downstairs`) -/

/-- A registry entry (`ActiveUpstairs`, lib.rs).  The one-shot eviction
channel `terminate_sender` is embedded as a channel identifier; sending on
it is recorded as an `EvictEvent`. -/
structure ActiveUpstairs where
  upstairs_connection : UpstairsConnection
  work : Work
  terminate_sender : Nat
deriving DecidableEq

/-- Process state (`Downstairs`, lib.rs), with logging/statistics fields
dropped and `repair_address` embedded as an opaque natural. -/
structure Downstairs where
  region : Region
  lossy : Bool
  return_errors : Bool
  active_upstairs : List (Uuid × ActiveUpstairs)
  read_only : Bool
  encrypted : Bool
  repair_address : Nat
deriving DecidableEq

/-- An eviction signal: `terminate_sender.send(new_conn)` on channel `chan`
carrying `msg`.  `finalWork` records the value of the evicted session's
`Work` object once `promote_to_active` has cleared it (the evicted task
still holds a reference to that object in the source).  The source tolerates
a closed receiver: emission never fails, so the event is recorded
unconditionally. -/
structure EvictEvent where
  chan : Nat
  msg : UpstairsConnection
  finalWork : Work
deriving DecidableEq

/-- `Downstairs::work_lock` (lib.rs lines 1414-1444): the work queue is
handed out iff the registry holds an entry under `conn.upstairs_id` whose
registered connection equals `conn` in all three fields. -/
def Downstairs.work_lock (d : Downstairs) (conn : UpstairsConnection) :
    Except CrucibleError Work :=
  match lookupKey d.active_upstairs conn.upstairs_id with
  | none => Except.error CrucibleError.UpstairsInactive
  | some au =>
      if au.upstairs_connection = conn then Except.ok au.work
      else Except.error CrucibleError.UpstairsInactive

/-- Writing back through the work-lock guard: an in-place update of the
`work` field of the entry under `uid`. -/
def Downstairs.set_work (d : Downstairs) (uid : Uuid) (w : Work) :
    Downstairs :=
  { d with active_upstairs :=
      updateKey d.active_upstairs uid (fun au => { au with work := w }) }

/-- `Downstairs::is_active`. -/
def Downstairs.is_active (d : Downstairs) (conn : UpstairsConnection) :
    Bool :=
  match lookupKey d.active_upstairs conn.upstairs_id with
  | some au => au.upstairs_connection = conn
  | none => false

/-- `Downstairs::add_work` (lib.rs lines 1463-1494): on a read-only node a
write op is rejected with `ModifyingReadOnlyRegion` before the queue is
touched; otherwise a `New` job is built and inserted through the work
lock. -/
def Downstairs.add_work (d : Downstairs) (conn : UpstairsConnection)
    (ds_id : Nat) (work : IOop) : Except CrucibleError Downstairs :=
  if d.read_only ∧ work.isWriteOp then
    Except.error CrucibleError.ModifyingReadOnlyRegion
  else
    let dsw : DownstairsWork :=
      { upstairs_connection := conn, ds_id := ds_id, work := work,
        state := WorkState.New }
    match d.work_lock conn with
    | Except.error e => Except.error e
    | Except.ok w =>
        Except.ok (d.set_work conn.upstairs_id (w.add_work ds_id dsw))

/-- `Downstairs::complete_work` (lib.rs lines 1669-1698): through the work
lock, remove the job; if it was a flush (the ack is a `FlushAck`), advance
`last_flush` and reset `completed`, otherwise append to `completed`; if the
id is already absent, leave the queue untouched. -/
def Downstairs.complete_work (d : Downstairs) (conn : UpstairsConnection)
    (ds_id : Nat) (m : Message) : Except CrucibleError Downstairs :=
  match d.work_lock conn with
  | Except.error e => Except.error e
  | Except.ok work =>
      let is_flush := m.isFlushAck
      let work2 :=
        match lookupKey work.active ds_id with
        | none => work
        | some _ =>
            if is_flush then
              { work with active := eraseKey work.active ds_id,
                          last_flush := ds_id, completed := [] }
            else
              { work with active := eraseKey work.active ds_id,
                          completed := work.completed ++ [ds_id] }
      Except.ok (d.set_work conn.upstairs_id work2)

/-- Result of `Downstairs::promote_to_active`: success with the updated
state and the eviction signals emitted, a `bail!` error, or the
`panic!` taken when more than one read-write owner is observed. -/
inductive PromoteResult where
  | ok (d : Downstairs) (events : List EvictEvent)
  | err (e : CrucibleError)
  | panicked
deriving DecidableEq

/-- `Downstairs::promote_to_active` (lib.rs lines 1734-1996).

Read-only path: any incumbent entry under `conn.upstairs_id` is signalled
and its work cleared, then the new entry is inserted (replacing the
incumbent's); no generation comparison is made.

Read-write path: with no owner, insert and re-open extents; with exactly one
owner, compare generations (`<` rejects, `=` requires the identical triple,
`>` or identical triple evicts: remove the entry, signal it, clear its work,
insert the new entry, re-open extents); with two or more owners, panic. -/
def Downstairs.promote_to_active (d : Downstairs)
    (conn : UpstairsConnection) (tx : Nat) : PromoteResult :=
  let newEntry : ActiveUpstairs :=
    { upstairs_connection := conn, work := Work.new, terminate_sender := tx }
  if d.read_only then
    let events : List EvictEvent :=
      match lookupKey d.active_upstairs conn.upstairs_id with
      | some au =>
          [{ chan := au.terminate_sender, msg := conn,
             finalWork := au.work.clear }]
      | none => []
    let d2 : Downstairs :=
      { d with active_upstairs :=
          insertKey d.active_upstairs conn.upstairs_id newEntry }
    PromoteResult.ok d2 events
  else
    match d.active_upstairs with
    | [] =>
        let d2 : Downstairs :=
          { d with active_upstairs := insertKey [] conn.upstairs_id newEntry,
                   region := d.region.reopen_all_extents }
        PromoteResult.ok d2 []
    | [(k, au)] =>
        if conn.gen < au.upstairs_connection.gen then
          PromoteResult.err CrucibleError.GenericError
        else if conn.gen = au.upstairs_connection.gen ∧
            au.upstairs_connection ≠ conn then
          PromoteResult.err CrucibleError.GenericError
        else
          let d2 : Downstairs :=
            { d with
                active_upstairs :=
                  insertKey (eraseKey [(k, au)] k) conn.upstairs_id newEntry,
                region := d.region.reopen_all_extents }
          let ev : EvictEvent :=
            { chan := au.terminate_sender, msg := conn,
              finalWork := au.work.clear }
          PromoteResult.ok d2 [ev]
    | _ => PromoteResult.panicked

/-- A sequence of promotion attempts (each with its fresh terminate
channel): a failed attempt leaves the registry unchanged, as every `bail!`
in the source fires before any mutation. -/
def promoteSeq (d : Downstairs) :
    List (UpstairsConnection × Nat) → Downstairs
  | [] => d
  | (c, tx) :: rest =>
      match d.promote_to_active c tx with
      | PromoteResult.ok d2 _ => promoteSeq d2 rest
      | _ => promoteSeq d rest

/-! ## Negotiation state machine (`proc`) -/

/-- Per-connection negotiation state of `proc` (lib.rs lines 785-1128): the
`negotiated` counter, the recorded connection, and the eviction channel
created for this connection (`another_upstairs_active_tx`). -/
structure NegState where
  negotiated : Nat
  upstairs_connection : Option UpstairsConnection
  tx : Nat
deriving DecidableEq

/-- Outcome of handling one inbound frame during negotiation: advance with
frames sent in reply, terminate the connection (`bail!`) with frames sent
first, or hit a `panic!`/`unwrap` failure. -/
inductive StepResult where
  | next (d : Downstairs) (st : NegState) (sent : List Message)
  | closed (sent : List Message)
  | crashed
deriving DecidableEq

/-- One step of the negotiation loop of `proc` (lib.rs lines 882-1120): the
handling of one decoded frame.  Mirrors the match arms in source order:
`Ruok` is answered in place; `HereIAm` is accepted only at step 0 with
version 1 and flags agreeing with the node configuration; `PromoteToActive`
only at step 1 for the recorded identity, calling `promote_to_active`;
`RegionInfoPlease` only at step 2; `LastFlush` and `ExtentVersionsPlease`
only at step 3, advancing to 4; every other frame (in particular every IO
frame) is logged and ignored. -/
def negotiate_step (d : Downstairs) (st : NegState) (m : Message) :
    StepResult :=
  match m with
  | Message.Ruok => StepResult.next d st [Message.Imok]
  | Message.HereIAm version uid sid gen ro enc =>
      if st.negotiated ≠ 0 then StepResult.closed []
      else if version ≠ 1 then StepResult.closed []
      else if d.read_only ≠ ro then
        StepResult.closed [Message.ReadOnlyMismatch d.read_only]
      else if d.encrypted ≠ enc then
        StepResult.closed [Message.EncryptedMismatch d.encrypted]
      else
        let conn : UpstairsConnection :=
          { upstairs_id := uid, session_id := sid, gen := gen }
        let st2 : NegState :=
          { st with negotiated := 1, upstairs_connection := some conn }
        StepResult.next d st2 [Message.YesItsMe 1 d.repair_address]
  | Message.PromoteToActive uid sid gen =>
      if st.negotiated ≠ 1 then StepResult.closed []
      else
        match st.upstairs_connection with
        | none => StepResult.crashed
        | some c =>
            if ¬ (c.upstairs_id = uid ∧ c.session_id = sid) then
              StepResult.closed [Message.UuidMismatch c.upstairs_id]
            else
              let c2 : UpstairsConnection := { c with gen := gen }
              match d.promote_to_active c2 st.tx with
              | PromoteResult.ok d2 _ =>
                  let st2 : NegState :=
                    { st with negotiated := 2,
                              upstairs_connection := some c2 }
                  StepResult.next d2 st2
                    [Message.YouAreNowActive uid sid gen]
              | PromoteResult.err _ => StepResult.closed []
              | PromoteResult.panicked => StepResult.crashed
  | Message.RegionInfoPlease =>
      if st.negotiated ≠ 2 then StepResult.closed []
      else
        StepResult.next d { st with negotiated := 3 }
          [Message.RegionInfo d.region.rdef]
  | Message.LastFlush n =>
      if st.negotiated ≠ 3 then StepResult.closed []
      else
        match st.upstairs_connection with
        | none => StepResult.crashed
        | some c =>
            match d.work_lock c with
            | Except.error _ => StepResult.closed []
            | Except.ok w =>
                let d2 := d.set_work c.upstairs_id { w with last_flush := n }
                StepResult.next d2 { st with negotiated := 4 }
                  [Message.LastFlushAck n]
  | Message.ExtentVersionsPlease =>
      if st.negotiated ≠ 3 then StepResult.closed []
      else
        StepResult.next d { st with negotiated := 4 }
          [Message.ExtentVersions d.region.gen_numbers
            d.region.flush_numbers d.region.dirty]
  | _ => StepResult.next d st []

/-! ## Frame dispatcher (`proc_frame`) -/

/-- `proc_frame` (lib.rs lines 365-648): handling of one steady-state frame
for the session `conn`.  On success, returns the updated state, the frames
sent in reply, and the job id posted to the worker's wake channel (if any).
An `Except.error` result is a `?`-propagated failure, which ends the
dispatcher task and with it the connection.  The extent-repair subfamily is
answered inline from the region and is not modelled; frames outside the
match (negotiation frames, pings reaching the dispatcher) hit the final
`bail!`. -/
def proc_frame (conn : UpstairsConnection) (d : Downstairs) (m : Message) :
    Except CrucibleError (Downstairs × List Message × Option Nat) :=
  match m with
  | Message.Write uid sid jid dl ws =>
      if conn.upstairs_id ≠ uid then
        Except.ok (d, [Message.UuidMismatch conn.upstairs_id], none)
      else if conn.session_id ≠ sid then
        Except.ok (d, [Message.UuidMismatch conn.session_id], none)
      else
        match d.add_work conn jid (IOop.Write dl ws) with
        | Except.error e => Except.error e
        | Except.ok d2 => Except.ok (d2, [], some jid)
  | Message.Flush uid sid jid dl fn gn sd =>
      if conn.upstairs_id ≠ uid then
        Except.ok (d, [Message.UuidMismatch conn.upstairs_id], none)
      else if conn.session_id ≠ sid then
        Except.ok (d, [Message.UuidMismatch conn.session_id], none)
      else
        match d.add_work conn jid (IOop.Flush dl fn gn sd) with
        | Except.error e => Except.error e
        | Except.ok d2 => Except.ok (d2, [], some jid)
  | Message.WriteUnwritten uid sid jid dl ws =>
      if conn.upstairs_id ≠ uid then
        Except.ok (d, [Message.UuidMismatch conn.upstairs_id], none)
      else if conn.session_id ≠ sid then
        Except.ok (d, [Message.UuidMismatch conn.session_id], none)
      else
        match d.add_work conn jid (IOop.WriteUnwritten dl ws) with
        | Except.error e => Except.error e
        | Except.ok d2 => Except.ok (d2, [], some jid)
  | Message.ReadRequest uid sid jid dl rs =>
      if conn.upstairs_id ≠ uid then
        Except.ok (d, [Message.UuidMismatch conn.upstairs_id], none)
      else if conn.session_id ≠ sid then
        Except.ok (d, [Message.UuidMismatch conn.session_id], none)
      else
        match d.add_work conn jid (IOop.Read dl rs) with
        | Except.error e => Except.error e
        | Except.ok d2 => Except.ok (d2, [], some jid)
  | _ => Except.error CrucibleError.GenericError

/-- The fate of the connection after the dispatcher handles `m`: a
`proc_frame` error makes `pf_task` bail, which makes `resp_loop` bail and
close the connection (lib.rs lines 1191-1214). -/
def connection_closes_on (conn : UpstairsConnection) (d : Downstairs)
    (m : Message) : Bool :=
  match proc_frame conn d m with
  | Except.error _ => true
  | Except.ok _ => false

/-! ## Worker loop tail (`do_work_task`) -/

/-- Observable actions of the worker loop for one executed job. -/
inductive WorkEvent where
  | ackSent (m : Message)
  | completedJob (ds_id : Nat)
deriving DecidableEq

/-- The tail of the per-job body of `do_work_task` (lib.rs lines 719-733),
entered once `do_work` has produced the ack frame `m` for job `job_id`:
the counters are updated (`complete_work_stat`, not observable here), the
ack is sent on the framed writer, and only then is `complete_work` called.
The returned trace records the order of the observable actions; the
`Except` result is the worker's fate (`?` on `complete_work`). -/
def ack_and_complete (d : Downstairs) (conn : UpstairsConnection)
    (job_id : Nat) (m : Message) :
    List WorkEvent × Except CrucibleError Downstairs :=
  match d.complete_work conn job_id m with
  | Except.error e => ([WorkEvent.ackSent m], Except.error e)
  | Except.ok d2 =>
      ([WorkEvent.ackSent m, WorkEvent.completedJob job_id], Except.ok d2)

/-! ## Shared lemmas about the registry -/

theorem work_lock_ok_of (d : Downstairs) (conn : UpstairsConnection)
    (au : ActiveUpstairs)
    (h1 : lookupKey d.active_upstairs conn.upstairs_id = some au)
    (h2 : au.upstairs_connection = conn) :
    d.work_lock conn = Except.ok au.work := by
  simp [Downstairs.work_lock, h1, h2]

theorem work_lock_set_work (d : Downstairs) (conn : UpstairsConnection)
    (au : ActiveUpstairs) (w : Work)
    (h1 : lookupKey d.active_upstairs conn.upstairs_id = some au)
    (h2 : au.upstairs_connection = conn) :
    (d.set_work conn.upstairs_id w).work_lock conn = Except.ok w := by
  simp [Downstairs.set_work, Downstairs.work_lock,
    lookupKey_updateKey_self, h1, h2]

/-! ## Case lemmas for `Downstairs.promote_to_active` -/

theorem promote_ro_evict (d : Downstairs) (conn : UpstairsConnection)
    (tx : Nat) (au : ActiveUpstairs) (hro : d.read_only = true)
    (hau : lookupKey d.active_upstairs conn.upstairs_id = some au) :
    d.promote_to_active conn tx =
      PromoteResult.ok
        { d with active_upstairs :=
            insertKey d.active_upstairs conn.upstairs_id ⟨conn, Work.new, tx⟩ }
        [⟨au.terminate_sender, conn, au.work.clear⟩] := by
  simp [Downstairs.promote_to_active, hro, hau]

theorem promote_ro_fresh (d : Downstairs) (conn : UpstairsConnection)
    (tx : Nat) (hro : d.read_only = true)
    (hau : lookupKey d.active_upstairs conn.upstairs_id = none) :
    d.promote_to_active conn tx =
      PromoteResult.ok
        { d with active_upstairs :=
            insertKey d.active_upstairs conn.upstairs_id ⟨conn, Work.new, tx⟩ }
        [] := by
  simp [Downstairs.promote_to_active, hro, hau]

theorem promote_rw_none (d : Downstairs) (conn : UpstairsConnection)
    (tx : Nat) (hro : d.read_only = false)
    (hact : d.active_upstairs = []) :
    d.promote_to_active conn tx =
      PromoteResult.ok
        { d with
            active_upstairs := [(conn.upstairs_id, ⟨conn, Work.new, tx⟩)],
            region := d.region.reopen_all_extents }
        [] := by
  simp [Downstairs.promote_to_active, hro, hact, insertKey, eraseKey]

theorem promote_rw_lt (d : Downstairs) (conn : UpstairsConnection)
    (tx k : Nat) (au : ActiveUpstairs) (hro : d.read_only = false)
    (hact : d.active_upstairs = [(k, au)])
    (hlt : conn.gen < au.upstairs_connection.gen) :
    d.promote_to_active conn tx =
      PromoteResult.err CrucibleError.GenericError := by
  simp [Downstairs.promote_to_active, hro, hact, hlt]

theorem promote_rw_eq_ne (d : Downstairs) (conn : UpstairsConnection)
    (tx k : Nat) (au : ActiveUpstairs) (hro : d.read_only = false)
    (hact : d.active_upstairs = [(k, au)])
    (heq : conn.gen = au.upstairs_connection.gen)
    (hne : au.upstairs_connection ≠ conn) :
    d.promote_to_active conn tx =
      PromoteResult.err CrucibleError.GenericError := by
  have hnlt : ¬ conn.gen < au.upstairs_connection.gen := by omega
  simp only [Downstairs.promote_to_active, hro, Bool.false_eq_true, if_false,
    hact]
  rw [if_neg hnlt, if_pos ⟨heq, hne⟩]

theorem promote_rw_take (d : Downstairs) (conn : UpstairsConnection)
    (tx k : Nat) (au : ActiveUpstairs) (hro : d.read_only = false)
    (hact : d.active_upstairs = [(k, au)])
    (hnlt : ¬ conn.gen < au.upstairs_connection.gen)
    (hnd : ¬ (conn.gen = au.upstairs_connection.gen ∧
      au.upstairs_connection ≠ conn)) :
    d.promote_to_active conn tx =
      PromoteResult.ok
        { d with
            active_upstairs := [(conn.upstairs_id, ⟨conn, Work.new, tx⟩)],
            region := d.region.reopen_all_extents }
        [⟨au.terminate_sender, conn, au.work.clear⟩] := by
  simp only [Downstairs.promote_to_active, hro, Bool.false_eq_true, if_false,
    hact]
  rw [if_neg hnlt, if_neg hnd]
  simp [insertKey, eraseKey]

theorem promote_rw_many (d : Downstairs) (conn : UpstairsConnection)
    (tx : Nat) (p q : Uuid × ActiveUpstairs)
    (rest : List (Uuid × ActiveUpstairs)) (hro : d.read_only = false)
    (hact : d.active_upstairs = p :: q :: rest) :
    d.promote_to_active conn tx = PromoteResult.panicked := by
  simp [Downstairs.promote_to_active, hro, hact]

/-- Every successful promotion leaves the registry in one of two shapes:
the read-only insert, or (read-write) the single new entry. -/
theorem promote_ok_shape (d : Downstairs) (conn : UpstairsConnection)
    (tx : Nat) (d2 : Downstairs) (evs : List EvictEvent)
    (hok : d.promote_to_active conn tx = PromoteResult.ok d2 evs) :
    d2.read_only = d.read_only ∧
    ((d.read_only = true ∧
        d2.active_upstairs =
          insertKey d.active_upstairs conn.upstairs_id
            ⟨conn, Work.new, tx⟩) ∨
     (d.read_only = false ∧
        d2.active_upstairs =
          [(conn.upstairs_id, ⟨conn, Work.new, tx⟩)])) := by
  by_cases hro : d.read_only = true
  · rcases hlk : lookupKey d.active_upstairs conn.upstairs_id with _ | au
    · rw [promote_ro_fresh d conn tx hro hlk] at hok
      simp only [PromoteResult.ok.injEq] at hok
      rw [← hok.1]
      exact ⟨by rw [hro], Or.inl ⟨hro, rfl⟩⟩
    · rw [promote_ro_evict d conn tx au hro hlk] at hok
      simp only [PromoteResult.ok.injEq] at hok
      rw [← hok.1]
      exact ⟨by rw [hro], Or.inl ⟨hro, rfl⟩⟩
  · have hro2 : d.read_only = false := by
      cases h : d.read_only
      · rfl
      · exact absurd h hro
    match hact : d.active_upstairs with
    | [] =>
        rw [promote_rw_none d conn tx hro2 hact] at hok
        simp only [PromoteResult.ok.injEq] at hok
        rw [← hok.1]
        exact ⟨by rw [hro2], Or.inr ⟨hro2, rfl⟩⟩
    | [(k, au)] =>
        by_cases hlt : conn.gen < au.upstairs_connection.gen
        · rw [promote_rw_lt d conn tx k au hro2 hact hlt] at hok
          cases hok
        · by_cases hd : conn.gen = au.upstairs_connection.gen ∧
            au.upstairs_connection ≠ conn
          · rw [promote_rw_eq_ne d conn tx k au hro2 hact hd.1 hd.2] at hok
            cases hok
          · rw [promote_rw_take d conn tx k au hro2 hact hlt hd] at hok
            simp only [PromoteResult.ok.injEq] at hok
            rw [← hok.1]
            exact ⟨by rw [hro2], Or.inr ⟨hro2, rfl⟩⟩
    | p :: q :: rest =>
        rw [promote_rw_many d conn tx p q rest hro2 hact] at hok
        cases hok

/-- Successful promotion preserves distinctness of registry keys. -/
theorem promote_preserves_nodup (d : Downstairs)
    (conn : UpstairsConnection) (tx : Nat) (d2 : Downstairs)
    (evs : List EvictEvent)
    (hok : d.promote_to_active conn tx = PromoteResult.ok d2 evs)
    (h : (keysOf d.active_upstairs).Nodup) :
    (keysOf d2.active_upstairs).Nodup := by
  rcases (promote_ok_shape d conn tx d2 evs hok).2 with ⟨_, h2⟩ | ⟨_, h2⟩
  · rw [h2]
    exact nodup_keysOf_insertKey _ _ _ h
  · rw [h2]
    simp [keysOf]

/-- Any sequence of promotion attempts preserves distinctness of registry
keys. -/
theorem promoteSeq_preserves_nodup (l : List (UpstairsConnection × Nat)) :
    ∀ d : Downstairs, (keysOf d.active_upstairs).Nodup →
      (keysOf (promoteSeq d l).active_upstairs).Nodup := by
  induction l with
  | nil =>
      intro d h
      exact h
  | cons p rest ih =>
      intro d h
      obtain ⟨c, tx⟩ := p
      cases hstep : d.promote_to_active c tx with
      | ok d2 evs =>
          have h2 := promote_preserves_nodup d c tx d2 evs hstep h
          simpa [promoteSeq, hstep] using ih d2 h2
      | err e =>
          simpa [promoteSeq, hstep] using ih d h
      | panicked =>
          simpa [promoteSeq, hstep] using ih d h

/-! ## Case lemmas for `Work.in_progress` -/

theorem c1_absent (w : Work) (ds_id : Nat)
    (h : lookupKey w.active ds_id = none) :
    w.in_progress ds_id = (none, w) := by
  simp [Work.in_progress, h]

theorem c1_ready (w : Work) (ds_id : Nat) (job : DownstairsWork)
    (hjob : lookupKey w.active ds_id = some job)
    (hst : job.state = WorkState.New ∨ job.state = WorkState.DepWait)
    (hdeps : depsSatisfied w job.work.deps) :
    w.in_progress ds_id =
      (some (job.ds_id, job.upstairs_connection),
       { w with active :=
           insertKey w.active ds_id { job with state := WorkState.InProgress } }) := by
  have hfil := (unmet_filter_eq_nil_iff w job.work.deps).mpr hdeps
  simp only [Work.in_progress, hjob]
  rw [if_pos hst, if_pos hfil]

theorem c1_unmet (w : Work) (ds_id : Nat) (job : DownstairsWork)
    (hjob : lookupKey w.active ds_id = some job)
    (hst : job.state = WorkState.New ∨ job.state = WorkState.DepWait)
    (hdeps : ¬ depsSatisfied w job.work.deps) :
    w.in_progress ds_id =
      (none,
       { w with
           outstanding_deps :=
             insertKey w.outstanding_deps ds_id
               (job.work.deps.filter
                 (fun dep =>
                   decide (¬ dep ≤ w.last_flush ∧ dep ∉ w.completed))).length,
           active :=
             if job.state = WorkState.New then
               insertKey w.active ds_id { job with state := WorkState.DepWait }
             else w.active }) := by
  have hfil : ¬ (job.work.deps.filter
      (fun dep => decide (¬ dep ≤ w.last_flush ∧ dep ∉ w.completed)) = []) :=
    fun hc => hdeps ((unmet_filter_eq_nil_iff w job.work.deps).mp hc)
  simp only [Work.in_progress, hjob]
  rw [if_pos hst, if_neg hfil]

theorem c1_not_ready (w : Work) (ds_id : Nat) (job : DownstairsWork)
    (hjob : lookupKey w.active ds_id = some job)
    (hst : ¬ (job.state = WorkState.New ∨ job.state = WorkState.DepWait)) :
    w.in_progress ds_id = (none, w) := by
  simp only [Work.in_progress, hjob]
  rw [if_neg hst]

/-! ## The claims -/

/-- Claim C1: `try_start` (`Work::in_progress`) returns `Some (job id,
owner)` and marks the job `InProgress` iff the job is present with state
`New` or `DepWait` and every dependency is at or below `last_flush` or in
`completed`; with unmet dependencies it returns `None` and moves a `New`
job to `DepWait`; on an absent id it returns `None` with the queue
unchanged. -/
theorem claim_c1_in_progress (w : Work) (ds_id : Nat) :
    (lookupKey w.active ds_id = none → w.in_progress ds_id = (none, w)) ∧
    (∀ job, lookupKey w.active ds_id = some job →
      ((job.state = WorkState.New ∨ job.state = WorkState.DepWait) →
        depsSatisfied w job.work.deps →
          (w.in_progress ds_id).1 =
            some (job.ds_id, job.upstairs_connection) ∧
          lookupKey (w.in_progress ds_id).2.active ds_id =
            some { job with state := WorkState.InProgress }) ∧
      ((job.state = WorkState.New ∨ job.state = WorkState.DepWait) →
        ¬ depsSatisfied w job.work.deps →
          (w.in_progress ds_id).1 = none ∧
          (job.state = WorkState.New →
            lookupKey (w.in_progress ds_id).2.active ds_id =
              some { job with state := WorkState.DepWait })) ∧
      (¬ (job.state = WorkState.New ∨ job.state = WorkState.DepWait) →
        w.in_progress ds_id = (none, w))) ∧
    ((w.in_progress ds_id).1.isSome = true ↔
      ∃ job, lookupKey w.active ds_id = some job ∧
        (job.state = WorkState.New ∨ job.state = WorkState.DepWait) ∧
        depsSatisfied w job.work.deps) := by
  refine ⟨c1_absent w ds_id, ?_, ?_⟩
  · intro job hjob
    refine ⟨?_, ?_, c1_not_ready w ds_id job hjob⟩
    · intro hst hdeps
      rw [c1_ready w ds_id job hjob hst hdeps]
      exact ⟨rfl, lookupKey_insertKey_self _ _ _⟩
    · intro hst hdeps
      rw [c1_unmet w ds_id job hjob hst hdeps]
      refine ⟨rfl, ?_⟩
      intro hnew
      simp only [hnew, if_pos rfl]
      exact lookupKey_insertKey_self _ _ _
  · constructor
    · intro hs
      cases hlk : lookupKey w.active ds_id with
      | none =>
          rw [c1_absent w ds_id hlk] at hs
          simp at hs
      | some job =>
          by_cases hst :
              job.state = WorkState.New ∨ job.state = WorkState.DepWait
          · by_cases hdeps : depsSatisfied w job.work.deps
            · exact ⟨job, rfl, hst, hdeps⟩
            · rw [c1_unmet w ds_id job hlk hst hdeps] at hs
              simp at hs
          · rw [c1_not_ready w ds_id job hlk hst] at hs
            simp at hs
    · rintro ⟨job, hlk, hst, hdeps⟩
      rw [c1_ready w ds_id job hlk hst hdeps]
      rfl

def c1_conn : UpstairsConnection := ⟨1, 2, 1⟩

def c1_job : DownstairsWork := ⟨c1_conn, 1000, IOop.Read [] [], WorkState.New⟩

def c1_w : Work := ⟨[(1000, c1_job)], [], 0, []⟩

/-- Witness for claim C1 at a concrete queue holding one `New` job with no
dependencies. -/
theorem claim_c1_in_progress_witness :
    (c1_w.in_progress 1000).1 = some (1000, c1_conn) ∧
    lookupKey (c1_w.in_progress 1000).2.active 1000 =
      some { c1_job with state := WorkState.InProgress } := by
  have h :=
    ((claim_c1_in_progress c1_w 1000).2.1 c1_job (by decide)).1
      (Or.inl (by decide)) (by decide)
  exact h

/-- Claim C2: read-write promotion with exactly one registered owner `cur`:
a strictly lower generation is rejected; an equal generation is accepted
only for the identical `(upstairs_id, session_id, gen)` triple; a strictly
higher generation succeeds, emitting the eviction signal that carries
`conn` on `cur`'s terminate channel (tolerating a closed receiver, since
emission is unconditional), clearing `cur`'s `Work`, removing `cur`'s
entry, and inserting a fresh entry for `conn`.  Hence no read-write
promotion succeeds with a lower generation, or with an equal generation and
a different identity. -/
theorem claim_c2_rw_fencing (d : Downstairs) (conn : UpstairsConnection)
    (tx k : Nat) (au : ActiveUpstairs) (hro : d.read_only = false)
    (hone : d.active_upstairs = [(k, au)]) :
    (conn.gen < au.upstairs_connection.gen →
      d.promote_to_active conn tx =
        PromoteResult.err CrucibleError.GenericError) ∧
    (conn.gen = au.upstairs_connection.gen →
      conn ≠ au.upstairs_connection →
      d.promote_to_active conn tx =
        PromoteResult.err CrucibleError.GenericError) ∧
    (conn.gen = au.upstairs_connection.gen →
      conn = au.upstairs_connection →
      ∃ d2 evs, d.promote_to_active conn tx = PromoteResult.ok d2 evs) ∧
    (au.upstairs_connection.gen < conn.gen →
      d.promote_to_active conn tx =
        PromoteResult.ok
          { d with
              active_upstairs :=
                [(conn.upstairs_id, ⟨conn, Work.new, tx⟩)],
              region := d.region.reopen_all_extents }
          [⟨au.terminate_sender, conn, au.work.clear⟩] ∧
      au.work.clear = Work.new) := by
  refine ⟨?_, ?_, ?_, ?_⟩
  · intro hlt
    exact promote_rw_lt d conn tx k au hro hone hlt
  · intro heq hne
    exact promote_rw_eq_ne d conn tx k au hro hone heq (Ne.symm hne)
  · intro heq hsame
    refine ⟨_, _, promote_rw_take d conn tx k au hro hone (by omega) ?_⟩
    intro hc
    exact hc.2 hsame.symm
  · intro hgt
    refine ⟨promote_rw_take d conn tx k au hro hone (by omega) ?_, rfl⟩
    intro hc
    omega

def c2_cur : UpstairsConnection := ⟨1, 2, 1⟩

def c2_new : UpstairsConnection := ⟨1, 3, 2⟩

def c2_au : ActiveUpstairs := ⟨c2_cur, Work.new, 7⟩

def c2_d : Downstairs :=
  ⟨⟨0, [], [], []⟩, false, false, [(1, c2_au)], false, false, 0⟩

/-- Witness for claim C2: a higher-generation takeover at a concrete
registry with one owner, and a stale-generation rejection. -/
theorem claim_c2_rw_fencing_witness :
    c2_d.promote_to_active c2_new 9 =
      PromoteResult.ok
        { c2_d with
            active_upstairs :=
              [(c2_new.upstairs_id, ⟨c2_new, Work.new, 9⟩)],
            region := c2_d.region.reopen_all_extents }
        [⟨c2_au.terminate_sender, c2_new, c2_au.work.clear⟩] ∧
    c2_d.promote_to_active ⟨4, 5, 0⟩ 9 =
      PromoteResult.err CrucibleError.GenericError := by
  have h := claim_c2_rw_fencing c2_d c2_new 9 1 c2_au rfl rfl
  have h2 := claim_c2_rw_fencing c2_d ⟨4, 5, 0⟩ 9 1 c2_au rfl rfl
  exact ⟨(h.2.2.2 (by decide)).1, h2.1 (by decide)⟩

/-- Claim C3: `with_work` (`Downstairs::work_lock`) hands out the session's
`Work` iff the registry entry under `conn.upstairs_id` exists and its
registered connection equals `conn` in all three fields, failing with
`UpstairsInactive` otherwise; and after a successful promotion that
registers `conn`, every `with_work(cur)` call for an evicted `cur ≠ conn`
(any connection on a read-write node, the same-UUID incumbent on a
read-only node) fails with `UpstairsInactive`. -/
theorem claim_c3_work_lock_gate :
    (∀ (d : Downstairs) (conn : UpstairsConnection) (au : ActiveUpstairs),
      lookupKey d.active_upstairs conn.upstairs_id = some au →
      au.upstairs_connection = conn →
      d.work_lock conn = Except.ok au.work) ∧
    (∀ (d : Downstairs) (conn : UpstairsConnection) (au : ActiveUpstairs),
      lookupKey d.active_upstairs conn.upstairs_id = some au →
      au.upstairs_connection ≠ conn →
      d.work_lock conn = Except.error CrucibleError.UpstairsInactive) ∧
    (∀ (d : Downstairs) (conn : UpstairsConnection),
      lookupKey d.active_upstairs conn.upstairs_id = none →
      d.work_lock conn = Except.error CrucibleError.UpstairsInactive) ∧
    (∀ (d : Downstairs) (conn cur : UpstairsConnection) (tx : Nat)
      (d2 : Downstairs) (evs : List EvictEvent),
      d.promote_to_active conn tx = PromoteResult.ok d2 evs →
      cur ≠ conn →
      (d.read_only = false ∨ cur.upstairs_id = conn.upstairs_id) →
      d2.work_lock cur = Except.error CrucibleError.UpstairsInactive) := by
  refine ⟨?_, ?_, ?_, ?_⟩
  · intro d conn au h1 h2
    exact work_lock_ok_of d conn au h1 h2
  · intro d conn au h1 h2
    simp [Downstairs.work_lock, h1, h2]
  · intro d conn h1
    simp [Downstairs.work_lock, h1]
  · intro d conn cur tx d2 evs hok hne hcase
    rcases (promote_ok_shape d conn tx d2 evs hok).2 with ⟨hro, hact⟩ |
      ⟨hro, hact⟩
    · rcases hcase with hfalse | huid
      · rw [hro] at hfalse
        cases hfalse
      · unfold Downstairs.work_lock
        rw [hact, huid, lookupKey_insertKey_self]
        simp [Ne.symm hne]
    · unfold Downstairs.work_lock
      rw [hact]
      by_cases h : conn.upstairs_id = cur.upstairs_id
      · simp [lookupKey, h, Ne.symm hne]
      · simp [lookupKey, h]

def c3_cur : UpstairsConnection := ⟨1, 2, 1⟩

def c3_new : UpstairsConnection := ⟨1, 3, 2⟩

def c3_d : Downstairs :=
  ⟨⟨0, [], [], []⟩, false, false, [(1, ⟨c3_cur, Work.new, 7⟩)], false,
    false, 0⟩

def c3_d2 : Downstairs :=
  ⟨⟨0, [], [], []⟩, false, false, [(1, ⟨c3_new, Work.new, 9⟩)], false,
    false, 0⟩

/-- Witness for claim C3: after the concrete takeover of `c3_cur` by
`c3_new`, `work_lock` for the evicted connection fails, while it succeeded
beforehand. -/
theorem claim_c3_work_lock_gate_witness :
    c3_d.work_lock c3_cur = Except.ok Work.new ∧
    c3_d2.work_lock c3_cur =
      Except.error CrucibleError.UpstairsInactive := by
  refine ⟨claim_c3_work_lock_gate.1 c3_d c3_cur ⟨c3_cur, Work.new, 7⟩
    (by decide) (by decide), ?_⟩
  exact claim_c3_work_lock_gate.2.2.2 c3_d c3_new c3_cur 9 c3_d2
    [⟨7, c3_new, Work.new⟩] (by decide) (by decide) (Or.inl rfl)

/-- Claim C6: on a read-only node every promotion succeeds: a same-UUID
incumbent is evicted (signalled with `conn`, its `Work` cleared) and
replaced by a fresh entry, with no generation comparison; entries under
other UUIDs are untouched; and registry keys stay pairwise distinct under
any sequence of promotions. -/
theorem claim_c6_read_only_promotion (d : Downstairs)
    (conn : UpstairsConnection) (tx : Nat) (hro : d.read_only = true) :
    (∀ au, lookupKey d.active_upstairs conn.upstairs_id = some au →
      d.promote_to_active conn tx =
        PromoteResult.ok
          { d with active_upstairs :=
              insertKey d.active_upstairs conn.upstairs_id ⟨conn, Work.new, tx⟩ }
          [⟨au.terminate_sender, conn, au.work.clear⟩] ∧
      au.work.clear = Work.new) ∧
    (lookupKey d.active_upstairs conn.upstairs_id = none →
      d.promote_to_active conn tx =
        PromoteResult.ok
          { d with active_upstairs :=
              insertKey d.active_upstairs conn.upstairs_id ⟨conn, Work.new, tx⟩ }
          []) ∧
    (∃ d2 evs, d.promote_to_active conn tx = PromoteResult.ok d2 evs) ∧
    (∀ d2 evs, d.promote_to_active conn tx = PromoteResult.ok d2 evs →
      lookupKey d2.active_upstairs conn.upstairs_id =
        some ⟨conn, Work.new, tx⟩ ∧
      ∀ k, k ≠ conn.upstairs_id →
        lookupKey d2.active_upstairs k = lookupKey d.active_upstairs k) ∧
    (∀ l, (keysOf d.active_upstairs).Nodup →
      (keysOf (promoteSeq d l).active_upstairs).Nodup) := by
  refine ⟨?_, ?_, ?_, ?_, ?_⟩
  · intro au hau
    exact ⟨promote_ro_evict d conn tx au hro hau, rfl⟩
  · intro hau
    exact promote_ro_fresh d conn tx hro hau
  · rcases hlk : lookupKey d.active_upstairs conn.upstairs_id with _ | au
    · exact ⟨_, _, promote_ro_fresh d conn tx hro hlk⟩
    · exact ⟨_, _, promote_ro_evict d conn tx au hro hlk⟩
  · intro d2 evs hok
    rcases (promote_ok_shape d conn tx d2 evs hok).2 with ⟨_, hact⟩ |
      ⟨hfalse, _⟩
    · rw [hact]
      refine ⟨lookupKey_insertKey_self _ _ _, ?_⟩
      intro k hk
      exact lookupKey_insertKey_ne _ _ _ _ hk
    · rw [hro] at hfalse
      cases hfalse
  · intro l h
    exact promoteSeq_preserves_nodup l d h

def c6_cur : UpstairsConnection := ⟨1, 2, 1⟩

def c6_new : UpstairsConnection := ⟨1, 9, 5⟩

def c6_other : ActiveUpstairs := ⟨⟨4, 4, 4⟩, Work.new, 8⟩

def c6_d : Downstairs :=
  ⟨⟨0, [], [], []⟩, false, false,
    [(1, ⟨c6_cur, Work.new, 7⟩), (4, c6_other)], true, false, 0⟩

/-- Witness for claim C6: a concrete read-only registry with two entries;
promoting a new session for UUID 1 evicts the incumbent and leaves the
entry under UUID 4 untouched. -/
theorem claim_c6_read_only_promotion_witness :
    c6_d.promote_to_active c6_new 9 =
      PromoteResult.ok
        { c6_d with active_upstairs :=
            insertKey c6_d.active_upstairs c6_new.upstairs_id ⟨c6_new, Work.new, 9⟩ }
        [⟨7, c6_new, Work.new⟩] ∧
    (∀ d2 evs, c6_d.promote_to_active c6_new 9 = PromoteResult.ok d2 evs →
      lookupKey d2.active_upstairs 4 = some c6_other) := by
  have h := claim_c6_read_only_promotion c6_d c6_new 9 rfl
  constructor
  · exact (h.1 ⟨c6_cur, Work.new, 7⟩ (by decide)).1
  · intro d2 evs hok
    have h4 := ((h.2.2.2.1 d2 evs hok).2) 4 (by decide)
    rw [h4]
    decide

/-- Claim C4: `complete` (`Downstairs::complete_work`) on a job id present
in the session's `active` removes it; if the ack was a `FlushAck` it sets
`last_flush` to that id and resets `completed` to the empty list, otherwise
it appends the id to `completed`; on an absent id the whole `Work` state is
unchanged and the call succeeds as a no-op. -/
theorem claim_c4_complete_work (d : Downstairs) (conn : UpstairsConnection)
    (ds_id : Nat) (m : Message) (au : ActiveUpstairs)
    (h1 : lookupKey d.active_upstairs conn.upstairs_id = some au)
    (h2 : au.upstairs_connection = conn) :
    (lookupKey au.work.active ds_id = none →
      ∃ d2, d.complete_work conn ds_id m = Except.ok d2 ∧
        d2.work_lock conn = Except.ok au.work) ∧
    (∀ job, lookupKey au.work.active ds_id = some job →
      ∃ d2, d.complete_work conn ds_id m = Except.ok d2 ∧
        d2.work_lock conn =
          Except.ok
            (if m.isFlushAck then
              { au.work with active := eraseKey au.work.active ds_id,
                             last_flush := ds_id, completed := [] }
            else
              { au.work with active := eraseKey au.work.active ds_id,
                             completed := au.work.completed ++ [ds_id] }) ∧
        lookupKey
          (if m.isFlushAck then
            { au.work with active := eraseKey au.work.active ds_id,
                           last_flush := ds_id, completed := [] }
          else
            { au.work with active := eraseKey au.work.active ds_id,
                           completed := au.work.completed ++ [ds_id] }).active
          ds_id = none) := by
  have hwl := work_lock_ok_of d conn au h1 h2
  constructor
  · intro habs
    refine ⟨d.set_work conn.upstairs_id au.work, ?_, ?_⟩
    · simp only [Downstairs.complete_work, hwl, habs]
    · exact work_lock_set_work d conn au au.work h1 h2
  · intro job hjob
    cases hf : m.isFlushAck
    · have hcw : d.complete_work conn ds_id m =
          Except.ok (d.set_work conn.upstairs_id
            { au.work with active := eraseKey au.work.active ds_id,
                           completed := au.work.completed ++ [ds_id] }) := by
        simp only [Downstairs.complete_work, hwl, hjob, hf,
          Bool.false_eq_true, if_false]
      refine ⟨_, hcw, ?_, ?_⟩
      · rw [if_neg (by simp [hf])]
        exact work_lock_set_work d conn au _ h1 h2
      · rw [if_neg (by simp [hf])]
        exact lookupKey_eraseKey_self _ _
    · have hcw : d.complete_work conn ds_id m =
          Except.ok (d.set_work conn.upstairs_id
            { au.work with active := eraseKey au.work.active ds_id,
                           last_flush := ds_id, completed := [] }) := by
        simp only [Downstairs.complete_work, hwl, hjob, hf, if_true]
      refine ⟨_, hcw, ?_, ?_⟩
      · rw [if_pos (by simp [hf])]
        exact work_lock_set_work d conn au _ h1 h2
      · rw [if_pos (by simp [hf])]
        exact lookupKey_eraseKey_self _ _

def c4_conn : UpstairsConnection := ⟨1, 2, 1⟩

def c4_job : DownstairsWork := ⟨c4_conn, 1000, IOop.Flush [] 3 1 none, WorkState.InProgress⟩

def c4_au : ActiveUpstairs := ⟨c4_conn, ⟨[(1000, c4_job)], [], 0, [42]⟩, 7⟩

def c4_d : Downstairs :=
  ⟨⟨0, [], [], []⟩, false, false, [(1, c4_au)], false, false, 0⟩

/-- Witness for claim C4: completing a concrete flush removes the job,
advances `last_flush` to its id and empties `completed`. -/
theorem claim_c4_complete_work_witness :
    ∃ d2, c4_d.complete_work c4_conn 1000 (Message.FlushAck 1 2 1000 true) =
        Except.ok d2 ∧
      d2.work_lock c4_conn = Except.ok ⟨[], [], 1000, []⟩ := by
  obtain ⟨d2, hok, hwl, hrem⟩ :=
    (claim_c4_complete_work c4_d c4_conn 1000 (Message.FlushAck 1 2 1000 true)
      c4_au (by decide) (by decide)).2 c4_job (by decide)
  refine ⟨d2, hok, ?_⟩
  rw [hwl]
  rfl

/-- Claim C5: the negotiation state machine accepts each expected message
only in its phase (`HereIAm` at 0, `PromoteToActive` at 1,
`RegionInfoPlease` at 2, `LastFlush`/`ExtentVersionsPlease` at 3) and
terminates the connection on any of them out of phase; a `HereIAm` with
version other than 1 terminates the connection, and a `HereIAm` whose
`read_only`/`encrypted` flag disagrees with the node configuration sends
the corresponding mismatch frame and fails; IO frames are not accepted
before step 4 (they are ignored, adding no work). -/
theorem claim_c5_negotiation (d : Downstairs) (st : NegState)
    (version uid sid gen n jid : Nat) (ro enc : Bool) (dl : List Nat)
    (ws : List WriteReq) (rs : List ReadReq) (fn gn : Nat)
    (sd : Option Nat) :
    (st.negotiated ≠ 0 →
      negotiate_step d st (Message.HereIAm version uid sid gen ro enc) =
        StepResult.closed []) ∧
    (st.negotiated ≠ 1 →
      negotiate_step d st (Message.PromoteToActive uid sid gen) =
        StepResult.closed []) ∧
    (st.negotiated ≠ 2 →
      negotiate_step d st Message.RegionInfoPlease = StepResult.closed []) ∧
    (st.negotiated ≠ 3 →
      negotiate_step d st (Message.LastFlush n) = StepResult.closed []) ∧
    (st.negotiated ≠ 3 →
      negotiate_step d st Message.ExtentVersionsPlease =
        StepResult.closed []) ∧
    (st.negotiated = 0 → version ≠ 1 →
      negotiate_step d st (Message.HereIAm version uid sid gen ro enc) =
        StepResult.closed []) ∧
    (st.negotiated = 0 → version = 1 → ro ≠ d.read_only →
      negotiate_step d st (Message.HereIAm version uid sid gen ro enc) =
        StepResult.closed [Message.ReadOnlyMismatch d.read_only]) ∧
    (st.negotiated = 0 → version = 1 → ro = d.read_only →
      enc ≠ d.encrypted →
      negotiate_step d st (Message.HereIAm version uid sid gen ro enc) =
        StepResult.closed [Message.EncryptedMismatch d.encrypted]) ∧
    (negotiate_step d st (Message.Write uid sid jid dl ws) =
      StepResult.next d st []) ∧
    (negotiate_step d st (Message.WriteUnwritten uid sid jid dl ws) =
      StepResult.next d st []) ∧
    (negotiate_step d st (Message.Flush uid sid jid dl fn gn sd) =
      StepResult.next d st []) ∧
    (negotiate_step d st (Message.ReadRequest uid sid jid dl rs) =
      StepResult.next d st []) := by
  refine ⟨?_, ?_, ?_, ?_, ?_, ?_, ?_, ?_, rfl, rfl, rfl, rfl⟩
  · intro h
    simp only [negotiate_step]
    rw [if_pos h]
  · intro h
    simp only [negotiate_step]
    rw [if_pos h]
  · intro h
    simp only [negotiate_step]
    rw [if_pos h]
  · intro h
    simp only [negotiate_step]
    rw [if_pos h]
  · intro h
    simp only [negotiate_step]
    rw [if_pos h]
  · intro h0 hv
    simp only [negotiate_step]
    rw [if_neg (by simp [h0]), if_pos hv]
  · intro h0 hv hro
    simp only [negotiate_step]
    rw [if_neg (by simp [h0]), if_neg (by simp [hv]),
      if_pos (Ne.symm hro)]
  · intro h0 hv hro henc
    simp only [negotiate_step]
    rw [if_neg (by simp [h0]), if_neg (by simp [hv]),
      if_neg (by simp [hro]), if_pos (Ne.symm henc)]

def c5_d : Downstairs := ⟨⟨0, [], [], []⟩, false, false, [], false, false, 3⟩

def c5_st0 : NegState := ⟨0, none, 1⟩

def c5_st2 : NegState := ⟨2, some ⟨1, 2, 1⟩, 1⟩

/-- Witness for claim C5 at concrete negotiation states: an out-of-phase
`HereIAm`, a bad version, a read-only mismatch, and an ignored IO frame. -/
theorem claim_c5_negotiation_witness :
    negotiate_step c5_d c5_st2 (Message.HereIAm 1 1 2 1 false false) =
      StepResult.closed [] ∧
    negotiate_step c5_d c5_st0 (Message.HereIAm 2 1 2 1 false false) =
      StepResult.closed [] ∧
    negotiate_step c5_d c5_st0 (Message.HereIAm 1 1 2 1 true false) =
      StepResult.closed [Message.ReadOnlyMismatch false] ∧
    negotiate_step c5_d c5_st0 (Message.Write 1 2 5 [] []) =
      StepResult.next c5_d c5_st0 [] := by
  have h2 := claim_c5_negotiation c5_d c5_st2 1 1 2 1 0 5 false false [] []
    [] 0 0 none
  have h0 := claim_c5_negotiation c5_d c5_st0 2 1 2 1 0 5 false false [] []
    [] 0 0 none
  have h0r := claim_c5_negotiation c5_d c5_st0 1 1 2 1 0 5 true false [] []
    [] 0 0 none
  refine ⟨h2.1 (by decide), h0.2.2.2.2.2.1 rfl (by decide), ?_, ?_⟩
  · exact h0r.2.2.2.2.2.2.1 rfl rfl (by decide)
  · exact h0.2.2.2.2.2.2.2.2.1

/-- Claim C7: for every steady-state IO frame whose `upstairs_id` or
`session_id` differs from the session's connection, the dispatcher replies
`UuidMismatch` with the expected id and drops the frame — no job is added,
the state is unchanged and the connection stays open; when both identity
fields match, the corresponding `IOop` is built and added to the session's
`Work` under the frame's `job_id` (provided `add_work` itself accepts, i.e.
the session is registered and the op is not a write on a read-only node). -/
theorem claim_c7_dispatcher_identity (conn : UpstairsConnection)
    (d : Downstairs) (uid sid jid : Nat) (dl : List Nat)
    (ws : List WriteReq) (rs : List ReadReq) (fn gn : Nat)
    (sd : Option Nat) :
    (uid ≠ conn.upstairs_id →
      proc_frame conn d (Message.Write uid sid jid dl ws) =
        Except.ok (d, [Message.UuidMismatch conn.upstairs_id], none) ∧
      proc_frame conn d (Message.WriteUnwritten uid sid jid dl ws) =
        Except.ok (d, [Message.UuidMismatch conn.upstairs_id], none) ∧
      proc_frame conn d (Message.Flush uid sid jid dl fn gn sd) =
        Except.ok (d, [Message.UuidMismatch conn.upstairs_id], none) ∧
      proc_frame conn d (Message.ReadRequest uid sid jid dl rs) =
        Except.ok (d, [Message.UuidMismatch conn.upstairs_id], none)) ∧
    (uid = conn.upstairs_id → sid ≠ conn.session_id →
      proc_frame conn d (Message.Write uid sid jid dl ws) =
        Except.ok (d, [Message.UuidMismatch conn.session_id], none) ∧
      proc_frame conn d (Message.WriteUnwritten uid sid jid dl ws) =
        Except.ok (d, [Message.UuidMismatch conn.session_id], none) ∧
      proc_frame conn d (Message.Flush uid sid jid dl fn gn sd) =
        Except.ok (d, [Message.UuidMismatch conn.session_id], none) ∧
      proc_frame conn d (Message.ReadRequest uid sid jid dl rs) =
        Except.ok (d, [Message.UuidMismatch conn.session_id], none)) ∧
    (uid = conn.upstairs_id → sid = conn.session_id → ∀ d2,
      (d.add_work conn jid (IOop.Write dl ws) = Except.ok d2 →
        proc_frame conn d (Message.Write uid sid jid dl ws) =
          Except.ok (d2, [], some jid)) ∧
      (d.add_work conn jid (IOop.WriteUnwritten dl ws) = Except.ok d2 →
        proc_frame conn d (Message.WriteUnwritten uid sid jid dl ws) =
          Except.ok (d2, [], some jid)) ∧
      (d.add_work conn jid (IOop.Flush dl fn gn sd) = Except.ok d2 →
        proc_frame conn d (Message.Flush uid sid jid dl fn gn sd) =
          Except.ok (d2, [], some jid)) ∧
      (d.add_work conn jid (IOop.Read dl rs) = Except.ok d2 →
        proc_frame conn d (Message.ReadRequest uid sid jid dl rs) =
          Except.ok (d2, [], some jid))) ∧
    (∀ au op, lookupKey d.active_upstairs conn.upstairs_id = some au →
      au.upstairs_connection = conn →
      ¬ (d.read_only = true ∧ op.isWriteOp = true) →
      ∃ d2, d.add_work conn jid op = Except.ok d2 ∧
        d2.work_lock conn =
          Except.ok
            (au.work.add_work jid ⟨conn, jid, op, WorkState.New⟩) ∧
        lookupKey
          (au.work.add_work jid ⟨conn, jid, op, WorkState.New⟩).active
          jid = some ⟨conn, jid, op, WorkState.New⟩) := by
  refine ⟨?_, ?_, ?_, ?_⟩
  · intro h
    refine ⟨?_, ?_, ?_, ?_⟩ <;>
      · simp only [proc_frame]
        rw [if_pos (Ne.symm h)]
  · intro h1 h2
    have e1 : ¬ (conn.upstairs_id ≠ uid) := by simp [h1]
    refine ⟨?_, ?_, ?_, ?_⟩ <;>
      · simp only [proc_frame]
        rw [if_neg e1, if_pos (Ne.symm h2)]
  · intro h1 h2 d2
    have e1 : ¬ (conn.upstairs_id ≠ uid) := by simp [h1]
    have e2 : ¬ (conn.session_id ≠ sid) := by simp [h2]
    refine ⟨?_, ?_, ?_, ?_⟩ <;>
      · intro hadd
        simp only [proc_frame]
        rw [if_neg e1, if_neg e2]
        simp only [hadd]
  · intro au op hau hauc hnw
    have hwl := work_lock_ok_of d conn au hau hauc
    have hadd : d.add_work conn jid op =
        Except.ok (d.set_work conn.upstairs_id
          (au.work.add_work jid ⟨conn, jid, op, WorkState.New⟩)) := by
      simp only [Downstairs.add_work]
      rw [if_neg hnw]
      simp only [hwl]
    refine ⟨_, hadd, work_lock_set_work d conn au _ hau hauc, ?_⟩
    simp only [Work.add_work]
    exact lookupKey_insertKey_self _ _ _

def c7_conn : UpstairsConnection := ⟨1, 2, 1⟩

def c7_au : ActiveUpstairs := ⟨c7_conn, Work.new, 7⟩

def c7_d : Downstairs :=
  ⟨⟨0, [], [], []⟩, false, false, [(1, c7_au)], false, false, 0⟩

/-- Witness for claim C7: a mismatched `Write` is answered with
`UuidMismatch` and dropped; a matching `ReadRequest` lands in the session's
`Work` under its job id. -/
theorem claim_c7_dispatcher_identity_witness :
    proc_frame c7_conn c7_d (Message.Write 9 2 5 [] []) =
      Except.ok (c7_d, [Message.UuidMismatch 1], none) ∧
    ∃ d2, proc_frame c7_conn c7_d (Message.ReadRequest 1 2 5 [] []) =
        Except.ok (d2, [], some 5) ∧
      d2.work_lock c7_conn =
        Except.ok
          (Work.new.add_work 5 ⟨c7_conn, 5, IOop.Read [] [],
            WorkState.New⟩) := by
  have hmis := (claim_c7_dispatcher_identity c7_conn c7_d 9 2 5 [] [] []
    0 0 none).1 (by decide)
  have hadd := (claim_c7_dispatcher_identity c7_conn c7_d 1 2 5 [] [] []
    0 0 none).2.2.2 c7_au (IOop.Read [] []) (by decide) (by decide)
    (by simp [IOop.isWriteOp])
  obtain ⟨d2, ha, hw, _⟩ := hadd
  refine ⟨hmis.1, d2, ?_, hw⟩
  exact ((claim_c7_dispatcher_identity c7_conn c7_d 1 2 5 [] [] [] 0 0
    none).2.2.1 rfl rfl d2).2.2.2 ha

def c8_conn : UpstairsConnection := ⟨1, 2, 5⟩

def c8_au : ActiveUpstairs := ⟨c8_conn, Work.new, 7⟩

def c8_d : Downstairs :=
  ⟨⟨0, [], [], []⟩, false, false, [(1, c8_au)], true, false, 0⟩

/-- Counterexample to claim C8: on a concrete read-only node, a matching
`Write` makes `proc_frame` return the `ModifyingReadOnlyRegion` error
itself (no ack frame carrying the error is sent), and that error ends the
dispatcher task, closing the connection — contradicting the claim that the
error is reported in an ack's result with the connection kept open. -/
theorem claim_c8_counterexample :
    proc_frame c8_conn c8_d (Message.Write 1 2 1000 [] []) =
      Except.error CrucibleError.ModifyingReadOnlyRegion ∧
    connection_closes_on c8_conn c8_d (Message.Write 1 2 1000 [] []) =
      true := by
  exact ⟨rfl, rfl⟩

/-- Claim C8 as amended: on a read-only node, `Write`/`WriteUnwritten` are
rejected at `add_work` time with `ModifyingReadOnlyRegion` and no job is
inserted (`Read` and `Flush` are accepted); however, the error propagates
out of the frame dispatcher — no ack carrying it is sent and the connection
is closed. -/
theorem claim_c8_amended (d : Downstairs) (conn : UpstairsConnection)
    (jid : Nat) (dl : List Nat) (ws : List WriteReq) (rs : List ReadReq)
    (fn gn : Nat) (sd : Option Nat) (hro : d.read_only = true) :
    (d.add_work conn jid (IOop.Write dl ws) =
      Except.error CrucibleError.ModifyingReadOnlyRegion) ∧
    (d.add_work conn jid (IOop.WriteUnwritten dl ws) =
      Except.error CrucibleError.ModifyingReadOnlyRegion) ∧
    (proc_frame conn d
        (Message.Write conn.upstairs_id conn.session_id jid dl ws) =
      Except.error CrucibleError.ModifyingReadOnlyRegion) ∧
    (connection_closes_on conn d
        (Message.Write conn.upstairs_id conn.session_id jid dl ws) =
      true) ∧
    (∀ au, lookupKey d.active_upstairs conn.upstairs_id = some au →
      au.upstairs_connection = conn →
      (∃ d2, d.add_work conn jid (IOop.Read dl rs) = Except.ok d2) ∧
      (∃ d2, d.add_work conn jid (IOop.Flush dl fn gn sd) =
        Except.ok d2)) := by
  have hw : d.add_work conn jid (IOop.Write dl ws) =
      Except.error CrucibleError.ModifyingReadOnlyRegion := by
    simp only [Downstairs.add_work]
    rw [if_pos ⟨hro, rfl⟩]
  have hwu : d.add_work conn jid (IOop.WriteUnwritten dl ws) =
      Except.error CrucibleError.ModifyingReadOnlyRegion := by
    simp only [Downstairs.add_work]
    rw [if_pos ⟨hro, rfl⟩]
  have e1 : ¬ (conn.upstairs_id ≠ conn.upstairs_id) := fun hc => hc rfl
  have e2 : ¬ (conn.session_id ≠ conn.session_id) := fun hc => hc rfl
  have hpf : proc_frame conn d
      (Message.Write conn.upstairs_id conn.session_id jid dl ws) =
      Except.error CrucibleError.ModifyingReadOnlyRegion := by
    simp only [proc_frame]
    rw [if_neg e1, if_neg e2]
    simp only [hw]
  refine ⟨hw, hwu, hpf, ?_, ?_⟩
  · simp only [connection_closes_on, hpf]
  · intro au hau hauc
    have hwl := work_lock_ok_of d conn au hau hauc
    have hr : d.add_work conn jid (IOop.Read dl rs) =
        Except.ok (d.set_work conn.upstairs_id
          (au.work.add_work jid
            ⟨conn, jid, IOop.Read dl rs, WorkState.New⟩)) := by
      simp only [Downstairs.add_work]
      rw [if_neg (by simp [IOop.isWriteOp])]
      simp only [hwl]
    have hfl : d.add_work conn jid (IOop.Flush dl fn gn sd) =
        Except.ok (d.set_work conn.upstairs_id
          (au.work.add_work jid
            ⟨conn, jid, IOop.Flush dl fn gn sd, WorkState.New⟩)) := by
      simp only [Downstairs.add_work]
      rw [if_neg (by simp [IOop.isWriteOp])]
      simp only [hwl]
    exact ⟨⟨_, hr⟩, ⟨_, hfl⟩⟩

/-- Witness for the amended claim C8 at the concrete read-only node of the
counterexample: the write is refused with no job inserted, while a flush on
the same session is accepted. -/
theorem claim_c8_amended_witness :
    c8_d.add_work c8_conn 1000 (IOop.Write [] []) =
      Except.error CrucibleError.ModifyingReadOnlyRegion ∧
    (∃ d2, c8_d.add_work c8_conn 1000 (IOop.Flush [] 3 1 none) =
      Except.ok d2) := by
  have h := claim_c8_amended c8_d c8_conn 1000 [] [] [] 3 1 none rfl
  exact ⟨h.1, (h.2.2.2.2 c8_au (by decide) (by decide)).2⟩

/-! ## Case lemmas for errors of `complete_work` -/

theorem work_lock_error_eq (d : Downstairs) (conn : UpstairsConnection)
    (e : CrucibleError)
    (h : d.work_lock conn = Except.error e) :
    e = CrucibleError.UpstairsInactive := by
  cases hlk : lookupKey d.active_upstairs conn.upstairs_id with
  | none =>
      have hwl : d.work_lock conn =
          Except.error CrucibleError.UpstairsInactive := by
        simp [Downstairs.work_lock, hlk]
      rw [hwl] at h
      injection h with h2
      exact h2.symm
  | some au =>
      by_cases hc : au.upstairs_connection = conn
      · have hwl := work_lock_ok_of d conn au hlk hc
        rw [hwl] at h
        cases h
      · have hwl : d.work_lock conn =
            Except.error CrucibleError.UpstairsInactive := by
          simp [Downstairs.work_lock, hlk, hc]
        rw [hwl] at h
        injection h with h2
        exact h2.symm

theorem complete_work_error_eq (d : Downstairs)
    (conn : UpstairsConnection) (ds_id : Nat) (m : Message)
    (e : CrucibleError)
    (h : d.complete_work conn ds_id m = Except.error e) :
    e = CrucibleError.UpstairsInactive := by
  unfold Downstairs.complete_work at h
  cases hwl : d.work_lock conn with
  | error e2 =>
      rw [hwl] at h
      injection h with h2
      exact h2 ▸ work_lock_error_eq d conn e2 hwl
  | ok w =>
      rw [hwl] at h
      cases h

/-- Claim C9: in the worker loop, for every executed job the ack frame is
sent strictly before `complete` runs (so before the job leaves `active`);
and when the subsequent `complete_work` fails — necessarily with
`UpstairsInactive` — the worker ends with the ack already sent. -/
theorem claim_c9_ack_before_complete (d : Downstairs)
    (conn : UpstairsConnection) (job_id : Nat) (m : Message) :
    ((ack_and_complete d conn job_id m).1.head? =
      some (WorkEvent.ackSent m)) ∧
    (∀ i : Nat,
      (ack_and_complete d conn job_id m).1[i]? =
        some (WorkEvent.completedJob job_id) → 0 < i) ∧
    (∀ e, (ack_and_complete d conn job_id m).2 = Except.error e →
      (ack_and_complete d conn job_id m).1 = [WorkEvent.ackSent m] ∧
      e = CrucibleError.UpstairsInactive) ∧
    (∀ d2, (ack_and_complete d conn job_id m).2 = Except.ok d2 →
      (ack_and_complete d conn job_id m).1 =
        [WorkEvent.ackSent m, WorkEvent.completedJob job_id]) := by
  cases hcw : d.complete_work conn job_id m with
  | error e0 =>
      refine ⟨?_, ?_, ?_, ?_⟩
      · simp [ack_and_complete, hcw]
      · intro i hi
        simp only [ack_and_complete, hcw] at hi
        match i with
        | 0 => simp at hi
        | Nat.succ j => simp at hi
      · intro e he
        have h1 : (ack_and_complete d conn job_id m).1 =
            [WorkEvent.ackSent m] := by
          simp [ack_and_complete, hcw]
        have h2 : e = e0 := by
          simp only [ack_and_complete, hcw] at he
          injection he with h3
          exact h3.symm
        exact ⟨h1, h2.trans (complete_work_error_eq d conn job_id m e0 hcw)⟩
      · intro d2 hd2
        simp only [ack_and_complete, hcw] at hd2
        cases hd2
  | ok dnew =>
      refine ⟨?_, ?_, ?_, ?_⟩
      · simp [ack_and_complete, hcw]
      · intro i hi
        simp only [ack_and_complete, hcw] at hi
        match i with
        | 0 => simp at hi
        | Nat.succ j => exact Nat.succ_pos j
      · intro e he
        simp only [ack_and_complete, hcw] at he
        cases he
      · intro d2 hd2
        simp [ack_and_complete, hcw]

def c9_conn : UpstairsConnection := ⟨1, 2, 1⟩

def c9_m : Message := Message.WriteAck 1 2 5 true

def c9_job : DownstairsWork := ⟨c9_conn, 5, IOop.Write [] [], WorkState.InProgress⟩

def c9_d_gone : Downstairs :=
  ⟨⟨0, [], [], []⟩, false, false, [], false, false, 0⟩

def c9_d_ok : Downstairs :=
  ⟨⟨0, [], [], []⟩, false, false,
    [(1, ⟨c9_conn, ⟨[(5, c9_job)], [], 0, []⟩, 7⟩)], false, false, 0⟩

def c9_d2 : Downstairs :=
  ⟨⟨0, [], [], []⟩, false, false,
    [(1, ⟨c9_conn, ⟨[], [], 0, [5]⟩, 7⟩)], false, false, 0⟩

/-- Witness for claim C9: with the session evicted the worker ends with
exactly the ack emitted; with the session live the ack strictly precedes
the completion event. -/
theorem claim_c9_ack_before_complete_witness :
    (ack_and_complete c9_d_gone c9_conn 5 c9_m).1 =
      [WorkEvent.ackSent c9_m] ∧
    (ack_and_complete c9_d_ok c9_conn 5 c9_m).1 =
      [WorkEvent.ackSent c9_m, WorkEvent.completedJob 5] ∧
    0 < 1 := by
  refine ⟨?_, ?_, ?_⟩
  · exact ((claim_c9_ack_before_complete c9_d_gone c9_conn 5 c9_m).2.2.1
      CrucibleError.UpstairsInactive rfl).1
  · exact (claim_c9_ack_before_complete c9_d_ok c9_conn 5 c9_m).2.2.2
      c9_d2 rfl
  · exact (claim_c9_ack_before_complete c9_d_ok c9_conn 5 c9_m).2.1 1 rfl

/-- Claim C10: `Work::add_work` inserts unconditionally: the new job is
stored under `ds_id`, silently replacing any resident job (whatever its
state, including `InProgress`), with no error path; entries under other ids
and the rest of the queue are untouched. -/
theorem claim_c10_add_work_overwrites (w : Work) (ds_id : Nat)
    (dsw : DownstairsWork) (k : Nat) :
    lookupKey (w.add_work ds_id dsw).active ds_id = some dsw ∧
    (w.add_work ds_id dsw).last_flush = w.last_flush ∧
    (w.add_work ds_id dsw).completed = w.completed ∧
    (k ≠ ds_id →
      lookupKey (w.add_work ds_id dsw).active k = lookupKey w.active k) := by
  refine ⟨?_, rfl, rfl, ?_⟩
  · exact lookupKey_insertKey_self _ _ _
  · intro h
    exact lookupKey_insertKey_ne _ _ _ _ h

def c10_old : DownstairsWork := ⟨⟨1, 2, 3⟩, 5, IOop.Read [] [], WorkState.InProgress⟩

def c10_new : DownstairsWork := ⟨⟨1, 2, 3⟩, 5, IOop.Write [] [], WorkState.New⟩

def c10_w : Work := ⟨[(5, c10_old)], [], 0, []⟩

/-- Witness for claim C10 at a concrete queue where the resident job under
id 5 is `InProgress` and is silently replaced. -/
theorem claim_c10_add_work_overwrites_witness :
    lookupKey (c10_w.add_work 5 c10_new).active 5 = some c10_new ∧
    lookupKey (c10_w.add_work 5 c10_new).active 6 = lookupKey c10_w.active 6 := by
  have h := claim_c10_add_work_overwrites c10_w 5 c10_new 6
  exact ⟨h.1, h.2.2.2 (by decide)⟩

end Crucible
